import Mathlib

/-!
Verification of the torrent-metadata exchange subsystem
(`Tribler/Overlay/MetadataHandler.py`).

Shallow embedding conventions:
* Byte strings are `List Nat` (one entry per byte).
* The bencode serialization (`BitTornado.bencode`, an external collaborator
  of this module) is modelled as an executable encoder/decoder over an
  inductive value type `BValue`; Python exceptions are modelled with
  `Except String`.
* The external index store (`SynTorrentDBHandler`), the filesystem, the
  overlay transport and the download helper are modelled as explicit state
  inside a `World` record; pure external helpers (SHA-1, category
  classification, the unicode name helper, the clock) are fields of an
  `Oracles` record of oracle functions.
* Python integer/float arithmetic: `int((time() - date)/86400)` truncates
  toward zero, which is `Int.tdiv`.
-/

/-- ASCII bytes of a string literal (all keys used by the handler are ASCII). -/
def bs (s : String) : List Nat := s.toList.map Char.toNat

/-- Bencoded values: integers, byte strings, lists and string-keyed
dictionaries, exactly the value universe of `BitTornado.bencode`. -/
inductive BValue where
  | int : Int → BValue
  | str : List Nat → BValue
  | list : List BValue → BValue
  | dict : List (List Nat × BValue) → BValue

/-- Decimal digits of a natural number, as ASCII bytes. -/
def natChars (n : Nat) : List Nat := (Nat.toDigits 10 n).map Char.toNat

/-- Decimal rendering of an integer, as ASCII bytes (with a leading `-`). -/
def intChars (n : Int) : List Nat :=
  if n < 0 then 45 :: natChars n.natAbs else natChars n.toNat

mutual

/-- Modelled from the spec: `BitTornado.bencode.bencode` is not under `src/`;
the spec describes the canonical encoding as a length-prefixed,
deterministic, self-describing binary serialization of integers, byte
strings, lists and ordered maps.  This is the standard bencoding:
`i<int>e`, `<len>:<bytes>`, `l...e`, `d...e`. -/
def bencode : BValue → List Nat
  | .int n => 105 :: intChars n ++ [101]
  | .str s => natChars s.length ++ 58 :: s
  | .list l => 108 :: bencodeItems l ++ [101]
  | .dict d => 100 :: bencodePairs d ++ [101]

def bencodeItems : List BValue → List Nat
  | [] => []
  | v :: vs => bencode v ++ bencodeItems vs

def bencodePairs : List (List Nat × BValue) → List Nat
  | [] => []
  | (k, v) :: ps => (natChars k.length ++ 58 :: k) ++ bencode v ++ bencodePairs ps

end

/-- Parse a maximal run of ASCII decimal digits; returns the value, the
number of digits consumed, and the rest of the input. -/
def parseDigits : List Nat → Nat → Nat → Nat × Nat × List Nat
  | [], n, cnt => (n, cnt, [])
  | c :: rest, n, cnt =>
    if 48 ≤ c ∧ c ≤ 57 then parseDigits rest (n * 10 + (c - 48)) (cnt + 1)
    else (n, cnt, c :: rest)

mutual

/-- Modelled from the spec: `BitTornado.bencode.bdecode` is not under `src/`.
Fuel-indexed parser for one bencoded value; a parse failure models the
`ValueError` the Python decoder raises. -/
def bdecodeVal : Nat → List Nat → Except String (BValue × List Nat)
  | 0, _ => .error "bdecode: out of fuel"
  | _ + 1, [] => .error "bdecode: unexpected end of data"
  | fuel + 1, c :: rest =>
    if c = 105 then
      let (neg, rest') := match rest with
        | 45 :: r => (true, r)
        | _ => (false, rest)
      let (n, cnt, rest'') := parseDigits rest' 0 0
      if cnt = 0 then .error "bdecode: bad integer"
      else match rest'' with
        | 101 :: r => .ok (.int (if neg then -(n : Int) else (n : Int)), r)
        | _ => .error "bdecode: unterminated integer"
    else if c = 108 then bdecodeItems fuel rest
    else if c = 100 then bdecodePairs fuel rest
    else if 48 ≤ c ∧ c ≤ 57 then
      let (n, _, rest') := parseDigits (c :: rest) 0 0
      match rest' with
      | 58 :: r =>
        if r.length < n then .error "bdecode: string too short"
        else .ok (.str (r.take n), r.drop n)
      | _ => .error "bdecode: bad string length"
    else .error "bdecode: unknown value type"

def bdecodeItems : Nat → List Nat → Except String (BValue × List Nat)
  | 0, _ => .error "bdecode: out of fuel"
  | _ + 1, [] => .error "bdecode: unexpected end of data"
  | fuel + 1, s =>
    match s with
    | 101 :: r => .ok (.list [], r)
    | _ => do
      let (v, r) ← bdecodeVal fuel s
      let (vs, r') ← bdecodeItems fuel r
      match vs with
      | .list items => .ok (.list (v :: items), r')
      | _ => .error "bdecode: impossible"

def bdecodePairs : Nat → List Nat → Except String (BValue × List Nat)
  | 0, _ => .error "bdecode: out of fuel"
  | _ + 1, [] => .error "bdecode: unexpected end of data"
  | fuel + 1, s =>
    match s with
    | 101 :: r => .ok (.dict [], r)
    | _ => do
      let (k, r) ← bdecodeVal fuel s
      match k with
      | .str key => do
        let (v, r') ← bdecodeVal fuel r
        let (vs, r'') ← bdecodePairs fuel r'
        match vs with
        | .dict pairs => .ok (.dict ((key, v) :: pairs), r'')
        | _ => .error "bdecode: impossible"
      | _ => .error "bdecode: dictionary key is not a string"

end

/-- Decode a full bencoded byte string; trailing data is an error, mirroring
the Python decoder's `l != len(x)` check. -/
def bdecode (m : List Nat) : Except String BValue :=
  match bdecodeVal (m.length + 1) m with
  | .error e => .error e
  | .ok (v, []) => .ok v
  | .ok (_, _ :: _) => .error "bdecode: trailing data"

/-- Lookup in a bencoded dictionary (Python `d[key]` / `d.get(key)`). -/
def dlookup (d : List (List Nat × BValue)) (k : List Nat) : Option BValue :=
  (d.find? (fun e => e.1 == k)).map (·.2)

/-- Python `int(v)`-shaped read of a bencoded field that the handler assumes
to be an integer; non-integer values (which would be a type error on an
ill-formed torrent and never affect any claim) default to 0. -/
def bint : BValue → Int
  | .int n => n
  | _ => 0

/-- Byte-string content of a bencoded value, defaulting to empty. -/
def bstrOf : BValue → List Nat
  | .str s => s
  | _ => []

/-! ## Data model: index records, the world state, external oracles -/

/-- The `torrent['info']` sub-dictionary of an index record, as built by
`addTorrentToDB` (lines 149-166). -/
structure TorrentInfo where
  name : List Nat := []
  length : Int := 0
  num_files : Int := 0
  announce : List Nat := []
  announce_list : BValue := .str []
  creation_date : Int := 0

/-- An index record (the dict stored in `SynTorrentDBHandler`).  Fields the
code reads with `dict.get(key, default)` and that are not always written are
`Option`s (`none` models an absent key). -/
structure Torrent where
  infohash : List Nat
  torrent_dir : List Nat := []
  torrent_name : List Nat := []
  info : Option TorrentInfo := none
  category : List Nat := []
  ignore_number : Int := 0
  last_check_time : Int := 0
  retry_number : Option Int := none
  relevance : Option Int := none
  seeder : Int := 0
  leecher : Int := 0
  status : Option String := none

/-- The observable state the handler interacts with: the external index
store, the filesystem (path to contents), messages handed to the overlay
transport, download-helper notifications, and the handler's own fields
`num_torrents` / `torrent_list` set by `register` and `check_overflow`. -/
structure World where
  db : List Torrent
  fs : List (List Nat × List Nat)
  sent : List (List Nat × List Nat) := []
  notified : List (List Nat × List Nat) := []
  num_torrents : Int
  torrent_list : List Torrent := []

/-- External collaborators that behave as pure oracles for a single message:
SHA-1 (`sha(x).digest()` and `sha(x).hexdigest()`), the unicode name helper,
the category classifier, the clock, the configured storage directory and
capacity bound, whether the disk write raises, and whether a download helper
is registered. -/
structure Oracles where
  shaDigest : List Nat → List Nat
  shaHex : List Nat → List Nat
  torrentName : BValue → List Nat
  calculateCategory : BValue → List Nat → List Nat
  now : Int
  config_dir : List Nat
  max_num_torrents : Nat
  writeFails : Bool
  hasDlhelper : Bool

/-- `os.path.join(dir, name)` for the paths the handler builds. -/
def pathJoin (dir name : List Nat) : List Nat := dir ++ 47 :: name

/-- `os.path.split(path)`: split off the part after the last `/`. -/
def pathSplit (p : List Nat) : List Nat × List Nat :=
  let name := (p.reverse.takeWhile (fun c => !(c == 47))).reverse
  (p.take (p.length - name.length - 1), name)

def fsLookup (fs : List (List Nat × List Nat)) (p : List Nat) : Option (List Nat) :=
  (fs.find? (fun e => e.1 == p)).map (·.2)

def fsHas (fs : List (List Nat × List Nat)) (p : List Nat) : Bool :=
  (fsLookup fs p).isSome

def fsWrite (fs : List (List Nat × List Nat)) (p data : List Nat) :
    List (List Nat × List Nat) :=
  fs.filter (fun e => !(e.1 == p)) ++ [(p, data)]

def fsRemove (fs : List (List Nat × List Nat)) (p : List Nat) :
    List (List Nat × List Nat) :=
  fs.filter (fun e => !(e.1 == p))

/-! ## External index store (`SynTorrentDBHandler`), modelled at its
interface boundary -/

/-- Index lookup by identifier (`torrent_db.getTorrent`). -/
def getTorrent (db : List Torrent) (h : List Nat) : Option Torrent :=
  db.find? (fun t => t.infohash == h)

/-- Index upsert (`torrent_db.addTorrent(hash, torrent, ...)`): replace the
record with the same identifier, or append a new one. -/
def addTorrent (db : List Torrent) (t : Torrent) : List Torrent :=
  if (db.find? (fun x => x.infohash == t.infohash)).isSome then
    db.map (fun x => if x.infohash == t.infohash then t else x)
  else db ++ [t]

/-- `torrent_db.deleteTorrent(infohash, delete_file=True)`: remove the index
record and, per the spec's collaborator contract, its payload file. -/
def deleteTorrent (w : World) (h : List Nat) : World :=
  { w with
    db := w.db.filter (fun x => !(x.infohash == h)),
    fs := match getTorrent w.db h with
          | some t => fsRemove w.fs (pathJoin t.torrent_dir t.torrent_name)
          | none => w.fs }

/-- Modelled from the spec: `torrent_db.getRecommendedTorrents(light=True)`
is not under `src/`; the spec's `listLight()` is a cheap projection listing
every index record, used for capacity accounting. -/
def getRecommendedTorrents (db : List Torrent) : List Torrent := db

/-! ## Validator helpers -/

/-- Modelled from the spec: `Tribler.utilities.isValidInfohash` is not under
`src/`; the spec defines identifier validity as being exactly the fixed
identifier length (20 bytes). -/
def isValidInfohash (s : List Nat) : Bool := s.length == 20

/-- Identifier validity of a decoded bencode value: only byte strings have a
length, any other value fails the format check. -/
def isValidInfohashB : BValue → Bool
  | .str s => isValidInfohash s
  | _ => false

/-- line 25: `Max_Torrent_Size = 8*1024*1024`. -/
def Max_Torrent_Size : Nat := 8 * 1024 * 1024

/-- Modelled from the spec: the one-byte `GET_METADATA` message tag from
`BitTornado.BT1.MessageID` (not under `src/`); only its distinctness from
`METADATA_ID` matters. -/
def GET_METADATA_ID : Nat := 224

/-- Modelled from the spec: the one-byte `METADATA` message tag from
`BitTornado.BT1.MessageID` (not under `src/`). -/
def METADATA_ID : Nat := 225

/-! ## MetadataStore: `find_torrent`, `read_torrent`, `write_torrent` -/

/-- lines 110-121: `find_torrent` — index lookup, returning the on-disk path
only if the file exists, else `none`. -/
def find_torrent (w : World) (torrent_hash : List Nat) : Option (List Nat) :=
  match getTorrent w.db torrent_hash with
  | none => none
  | some data =>
    let filepath := pathJoin data.torrent_dir data.torrent_name
    if fsHas w.fs filepath then some filepath else none

/-- lines 123-137: `read_torrent` — read the file, returning `none` if it
cannot be opened or exceeds `Max_Torrent_Size`. -/
def read_torrent (fs : List (List Nat × List Nat)) (torrent_path : List Nat) :
    Option (List Nat) :=
  match fsLookup fs torrent_path with
  | none => none
  | some torrent_data =>
    if torrent_data.length > Max_Torrent_Size then none else some torrent_data

/-- lines 247-259: `write_torrent` — write the payload to
`dir/name`; any I/O error (`Oracles.writeFails`) is caught and logged, leaving
the filesystem unchanged. -/
def write_torrent (e : Oracles) (w : World) (metadata dir name : List Nat) : World :=
  if e.writeFails then w
  else { w with fs := fsWrite w.fs (pathJoin dir name) metadata }

/-! ## EvictionPolicy: `get_weight` and the sort -/

/-- line 211: `min(int((time() - date)/(24*60*60)), 999)`.  `time()` is a
float, so the division is float division and `int` truncates toward zero:
`Int.tdiv`. -/
def rel_date (now date : Int) : Int := min (Int.tdiv (now - date) (24 * 60 * 60)) 999

/-- lines 201-203: `status_value.get(torrent.get('status', 'dead'), 2)` with
`status_value = {'dead':2, 'unknown':1, 'good':0}`. -/
def status_of (t : Torrent) : Int :=
  let status_key := t.status.getD "dead"
  if status_key = "dead" then 2
  else if status_key = "unknown" then 1
  else if status_key = "good" then 0
  else 2

/-- line 210: `torrent.get('info', {}).get('creation date', 0)`. -/
def creation_of (t : Torrent) : Int :=
  match t.info with
  | some i => i.creation_date
  | none => 0

/-- lines 197-214: the eviction weight of one record. -/
def get_weight (now : Int) (torrent : Torrent) : Int :=
  let status := status_of torrent
  let retry_number := min (torrent.retry_number.getD 0) 99
  let relevance := min (torrent.relevance.getD 0) 99
  status * 10 ^ 7 + retry_number * 10 ^ 5 + (99 - relevance) * 10 ^ 3
    + rel_date now (creation_of torrent)

/-- One step of the descending-order insertion used to model the sort. -/
def insertDesc {α : Type} (key : α → Int) (x : α) : List α → List α
  | [] => [x]
  | y :: ys => if key y ≤ key x then x :: y :: ys else y :: insertDesc key x ys

/-- Modelled from the spec: `Tribler.utilities.sort_dictlist(list, 'weight',
order='decrease')` is not under `src/`; the spec says records are sorted by
descending weight.  Insertion sort on the weight key. -/
def sortDesc {α : Type} (key : α → Int) (l : List α) : List α :=
  l.foldr (insertDesc key) []

/-- lines 220-222: `num_delete = num_torrents - max + max/10`, bumped to 1
when non-positive (Python 2 `/` on non-negative ints is `Nat` division). -/
def num_delete (e : Oracles) (w : World) : Int :=
  let nd := w.num_torrents - (e.max_num_torrents : Int) + ((e.max_num_torrents / 10 : Nat) : Int)
  if nd ≤ 0 then 1 else nd

/-- lines 196-225: `limit_space` — weigh every record of the current
snapshot, sort by descending weight, and delete the first `num_delete`
(record and payload file); `num_torrents` is not touched. -/
def limit_space (e : Oracles) (w : World) : World :=
  let sorted := sortDesc (get_weight e.now) w.torrent_list
  let w1 := { w with torrent_list := sorted }
  (sorted.take (num_delete e w).toNat).foldl
    (fun acc t => deleteTorrent acc t.infohash) w1

/-! ## CapacityController: `check_overflow` -/

/-- The body of `check_overflow` after the lazy-initialization check
(lines 187-194): optimistic increment, then an authoritative re-count when
`update` is set, then the eviction pass when still over budget. -/
def check_overflow_step (e : Oracles) (update : Bool) (w : World) : World :=
  let w1 := { w with num_torrents := w.num_torrents + 1 }
  if w1.num_torrents > (e.max_num_torrents : Int) then
    let w2 :=
      if update then
        let tl := getRecommendedTorrents w1.db
        { w1 with torrent_list := tl, num_torrents := (tl.length : Int) }
      else w1
    if w2.num_torrents > (e.max_num_torrents : Int) then limit_space e w2 else w2
  else w1

/-- lines 181-194: `check_overflow` — when `num_torrents` is still the `-1`
set by `register`, initialize it from a full light index query and run the
body once recursively with `update=False` ("check at start time"), then fall
through to the body with the caller's `update`. -/
def check_overflow (e : Oracles) (update : Bool) (w : World) : World :=
  if w.num_torrents < 0 then
    let tl := getRecommendedTorrents w.db
    let w0 := { w with torrent_list := tl, num_torrents := (tl.length : Int) }
    check_overflow_step e update (check_overflow_step e false w0)
  else check_overflow_step e update w

/-! ## MetadataStore: `addTorrentToDB`, `get_filename`, `save_torrent` -/

/-- lines 140-179: `addTorrentToDB` — decode the payload, build the index
record, upsert it, run the capacity check, and sync the store (a no-op in
the model).  A decode failure or a missing/ill-typed `info` entry is a
Python exception (`.error`), raised before any state is mutated. -/
def addTorrentToDB (e : Oracles) (w : World) (src torrent_hash metadata : List Nat) :
    Except String World :=
  match bdecode metadata with
  | .error er => .error er
  | .ok metainfo =>
    match metainfo with
    | .dict md =>
      match dlookup md (bs "info") with
      | none => .error "KeyError: info"
      | some infoV =>
        match infoV with
        | .dict infoD =>
          let dn := pathSplit src
          let lnf : Int × Int :=
            match dlookup infoD (bs "length") with
            | some lv => (bint lv, 1)
            | none =>
              match dlookup infoD (bs "files") with
              | some (.list files) =>
                files.foldl
                  (fun (acc : Int × Int) li =>
                    match li with
                    | .dict ld =>
                      match dlookup ld (bs "length") with
                      | some lv => (acc.1 + bint lv, acc.2 + 1)
                      | none => (acc.1, acc.2 + 1)
                    | _ => (acc.1, acc.2 + 1))
                  (0, 0)
              | _ => (0, 0)
          let torrent : Torrent :=
            { infohash := torrent_hash
              torrent_dir := dn.1
              torrent_name := dn.2
              info := some
                { name := e.torrentName metainfo
                  length := lnf.1
                  num_files := lnf.2
                  announce := bstrOf ((dlookup md (bs "announce")).getD (.str []))
                  announce_list := (dlookup md (bs "announce-list")).getD (.str [])
                  creation_date := bint ((dlookup md (bs "creation date")).getD (.int 0)) }
              category := e.calculateCategory infoV (e.torrentName metainfo)
              ignore_number := 0
              last_check_time := e.now
              retry_number := some 0
              relevance := none
              seeder := 0
              leecher := 0
              status := some "unknown" }
          let w1 := { w with db := addTorrent w.db torrent }
          .ok (check_overflow e true w1)
        | _ => .error "AttributeError: info is not a dict"
    | _ => .error "TypeError: metainfo is not a dict"

/-- lines 237-245: `get_filename` — decode the payload (the result is
unused, but an exception propagates), derive the filename from the SHA-1 hex
digest of the identifier, and prepend a timestamp when the file exists. -/
def get_filename (e : Oracles) (w : World) (metadata torrent_hash : List Nat) :
    Except String (List Nat) :=
  match bdecode metadata with
  | .error er => .error er
  | .ok _ =>
    let file_name := e.shaHex torrent_hash ++ bs ".torrent"
    if fsHas w.fs (pathJoin e.config_dir file_name) then
      .ok (intChars e.now ++ bs "_" ++ file_name)
    else .ok file_name

/-- lines 228-235: `save_torrent` — choose the filename, add the record to
the index store (which triggers the capacity check), and only then write the
payload file. -/
def save_torrent (e : Oracles) (w : World) (torrent_hash metadata : List Nat) :
    Except String World :=
  match get_filename e w metadata torrent_hash with
  | .error er => .error er
  | .ok file_name =>
    let save_path := pathJoin e.config_dir file_name
    match addTorrentToDB e w save_path torrent_hash metadata with
    | .error er => .error er
    | .ok w1 => .ok (write_torrent e w1 metadata e.config_dir file_name)

/-! ## Validator and ProtocolHandler -/

/-- lines 261-268: `valid_metadata` — decode the payload, hash the canonical
encoding of its `info` entry and compare with the claimed identifier.  There
is no exception handler here: a decode failure or missing `info` key escapes
to the caller as an exception (`.error`). -/
def valid_metadata (e : Oracles) (torrent_hash metadata : List Nat) :
    Except String Bool :=
  match bdecode metadata with
  | .error er => .error er
  | .ok metainfo =>
    match metainfo with
    | .dict md =>
      match dlookup md (bs "info") with
      | none => .error "KeyError: info"
      | some info =>
        let infohash := e.shaDigest (bencode info)
        if infohash ≠ torrent_hash then .ok false else .ok true
    | _ => .error "TypeError: metainfo is not a dict"

/-- lines 270-295: `got_metadata` — decode the inbound `METADATA` message,
validate, save, and notify the download helper; every failure (including an
exception escaping `valid_metadata` or the save) is caught and reported as
`false` with no partial state change. -/
def got_metadata (e : Oracles) (w : World) (conn message : List Nat) : Bool × World :=
  match bdecode (message.drop 1) with
  | .error _ => (false, w)
  | .ok m =>
    match m with
    | .dict md =>
      match dlookup md (bs "torrent_hash") with
      | none => (false, w)
      | some thv =>
        match thv with
        | .str torrent_hash =>
          if ¬ isValidInfohash torrent_hash then (false, w)
          else
            match dlookup md (bs "metadata") with
            | none => (false, w)
            | some mv =>
              match mv with
              | .str metadata =>
                match valid_metadata e torrent_hash metadata with
                | .error _ => (false, w)
                | .ok false => (false, w)
                | .ok true =>
                  match save_torrent e w torrent_hash metadata with
                  | .error _ => (false, w)
                  | .ok w1 =>
                    if e.hasDlhelper then
                      (true, { w1 with notified := w1.notified ++ [(torrent_hash, metadata)] })
                    else (true, w1)
              | _ => (false, w)
        | _ => (false, w)
    | _ => (false, w)

/-- lines 103-108: `do_send_metadata` — encode `{'torrent_hash': ...,
'metadata': ...}` (bencoding orders the keys) and hand the tagged message to
the overlay transport. -/
def do_send_metadata (w : World) (permid torrent_hash torrent_data : List Nat) : World :=
  let payload := bencode (.dict [(bs "metadata", .str torrent_data),
                                 (bs "torrent_hash", .str torrent_hash)])
  { w with sent := w.sent ++ [(permid, METADATA_ID :: payload)] }

/-- lines 76-101: `send_metadata` — decode the requested identifier; on a
malformed or invalid identifier, or when the identifier is unknown locally,
return `False`; otherwise read the file and, when the payload is readable,
send the `METADATA` response, returning `True` either way. -/
def send_metadata (w : World) (conn message : List Nat) : Bool × World :=
  match bdecode (message.drop 1) with
  | .error _ => (false, w)
  | .ok v =>
    match v with
    | .str torrent_hash =>
      if ¬ isValidInfohash torrent_hash then (false, w)
      else
        match find_torrent w torrent_hash with
        | none => (false, w)
        | some torrent_path =>
          match read_torrent w.fs torrent_path with
          | some torrent_data => (true, do_send_metadata w conn torrent_hash torrent_data)
          | none => (true, w)
    | _ => (false, w)

/-- lines 49-64: `handleMessage` — dispatch on the one-byte type tag (an
empty message would raise in Python; modelled as a failure). -/
def handleMessage (e : Oracles) (w : World) (permid message : List Nat) : Bool × World :=
  match message with
  | [] => (false, w)
  | t :: _ =>
    if t = GET_METADATA_ID then send_metadata w permid message
    else if t = METADATA_ID then got_metadata e w permid message
    else (false, w)

/-! ## Spec-side definitions (for refinement claims) -/

/-- The claim's status ranking: good maps to 0, unknown to 1, dead or any
other status value to 2. -/
def status_rank (s : String) : Int :=
  if s = "good" then 0 else if s = "unknown" then 1 else 2

/-- The eviction weight exactly as the claim words it:
`status_rank*10^7 + min(retry,99)*10^5 + (99-min(relevance,99))*10^3 +
min(days_since_creation,999)`. -/
def spec_weight (now : Int) (t : Torrent) : Int :=
  status_rank (t.status.getD "dead") * 10 ^ 7
    + min (t.retry_number.getD 0) 99 * 10 ^ 5
    + (99 - min (t.relevance.getD 0) 99) * 10 ^ 3
    + min (Int.tdiv (now - creation_of t) 86400) 999

/-! ## Helper lemmas: the sort, deletion folds, the upsert -/

theorem insertDesc_perm {α : Type} (key : α → Int) (x : α) (l : List α) :
    (insertDesc key x l).Perm (x :: l) := by
  induction l with
  | nil => exact List.Perm.refl _
  | cons y ys ih =>
    rw [insertDesc]
    split
    · exact List.Perm.refl _
    · exact (List.Perm.cons y ih).trans (List.Perm.swap x y ys)

theorem sortDesc_perm {α : Type} (key : α → Int) (l : List α) :
    (sortDesc key l).Perm l := by
  induction l with
  | nil => exact List.Perm.refl _
  | cons x xs ih =>
    exact (insertDesc_perm key x (sortDesc key xs)).trans (List.Perm.cons x ih)

theorem pairwise_insertDesc {α : Type} (key : α → Int) (x : α) (l : List α)
    (h : l.Pairwise (fun a b => key b ≤ key a)) :
    (insertDesc key x l).Pairwise (fun a b => key b ≤ key a) := by
  induction l with
  | nil => simp [insertDesc]
  | cons y ys ih =>
    rcases List.pairwise_cons.mp h with ⟨hy, hys⟩
    rw [insertDesc]
    split_ifs with hle
    · refine List.pairwise_cons.mpr ⟨?_, h⟩
      intro b hb
      rcases List.mem_cons.mp hb with rfl | hb'
      · exact hle
      · exact le_trans (hy b hb') hle
    · refine List.pairwise_cons.mpr ⟨?_, ih hys⟩
      intro b hb
      have hb2 : b ∈ x :: ys := (insertDesc_perm key x ys).mem_iff.mp hb
      rcases List.mem_cons.mp hb2 with rfl | hb'
      · exact le_of_not_le hle
      · exact hy b hb'

theorem sortDesc_pairwise {α : Type} (key : α → Int) (l : List α) :
    (sortDesc key l).Pairwise (fun a b => key b ≤ key a) := by
  induction l with
  | nil => simp [sortDesc]
  | cons x xs ih => exact pairwise_insertDesc key x (sortDesc key xs) ih

theorem sortDesc_take_drop_le {α : Type} (key : α → Int) (l : List α) (n : Nat) :
    ∀ a ∈ (sortDesc key l).take n, ∀ b ∈ (sortDesc key l).drop n, key b ≤ key a := by
  have hp := sortDesc_pairwise key l
  rw [← List.take_append_drop n (sortDesc key l)] at hp
  exact (List.pairwise_append.mp hp).2.2

theorem deleteTorrent_db (w : World) (h : List Nat) :
    (deleteTorrent w h).db = w.db.filter (fun x => !(x.infohash == h)) := rfl

theorem foldl_delete_num (ts : List Torrent) (w : World) :
    (ts.foldl (fun acc t => deleteTorrent acc t.infohash) w).num_torrents
      = w.num_torrents := by
  induction ts generalizing w with
  | nil => rfl
  | cons t ts ih => simpa using ih (deleteTorrent w t.infohash)

theorem foldl_delete_db (ts : List Torrent) (w : World) :
    (ts.foldl (fun acc t => deleteTorrent acc t.infohash) w).db
      = w.db.filter
          (fun x => !((ts.map (fun t => t.infohash)).contains x.infohash)) := by
  induction ts generalizing w with
  | nil => simp
  | cons t ts ih =>
    rw [List.foldl_cons, ih, deleteTorrent_db, List.filter_filter]
    apply List.filter_congr
    intro x _
    simp only [List.map_cons, List.contains_cons, Bool.not_or, Bool.and_comm]

/-- After filtering out the records whose identifier occurs among the first
`n` of the descending sort, exactly `l.length - n` records remain (truncated
subtraction), provided identifiers are unique. -/
theorem length_filter_not_in_take (key : Torrent → Int) (l : List Torrent) (n : Nat)
    (hnd : (l.map (fun t => t.infohash)).Nodup) :
    (l.filter (fun x =>
        !((((sortDesc key l).take n).map (fun t => t.infohash)).contains x.infohash))).length
      = l.length - n := by
  set p : Torrent → Bool := fun x =>
    !((((sortDesc key l).take n).map (fun t => t.infohash)).contains x.infohash) with hp
  have hperm := sortDesc_perm key l
  have hlen : (l.filter p).length = ((sortDesc key l).filter p).length :=
    (hperm.symm.filter p).length_eq
  have hmapnd : ((sortDesc key l).map (fun t => t.infohash)).Nodup :=
    ((hperm.map (fun t => t.infohash)).nodup_iff).mpr hnd
  have hsplit : ((sortDesc key l).take n).map (fun t => t.infohash)
      ++ ((sortDesc key l).drop n).map (fun t => t.infohash)
      = (sortDesc key l).map (fun t => t.infohash) := by
    rw [← List.map_append, List.take_append_drop]
  have hdisj : (((sortDesc key l).take n).map (fun t => t.infohash)).Disjoint
      (((sortDesc key l).drop n).map (fun t => t.infohash)) := by
    have := hmapnd
    rw [← hsplit] at this
    exact (List.nodup_append.mp this).2.2
  have htake : ((sortDesc key l).take n).filter p = [] := by
    rw [List.filter_eq_nil_iff]
    intro a ha
    have hmem : a.infohash ∈ ((sortDesc key l).take n).map (fun t => t.infohash) :=
      List.mem_map_of_mem _ ha
    rw [List.map_take] at hmem
    simp [hp, List.elem_iff, hmem]
  have hdrop : ((sortDesc key l).drop n).filter p = (sortDesc key l).drop n := by
    apply List.filter_eq_self.mpr
    intro a ha
    have hmem : a.infohash ∈ ((sortDesc key l).drop n).map (fun t => t.infohash) :=
      List.mem_map_of_mem _ ha
    have hnot : a.infohash ∉ ((sortDesc key l).take n).map (fun t => t.infohash) :=
      fun hc => hdisj hc hmem
    rw [List.map_take] at hnot
    simp [hp, List.elem_iff, hnot]
  calc (l.filter p).length
      = ((sortDesc key l).filter p).length := hlen
    _ = (((sortDesc key l).take n ++ (sortDesc key l).drop n).filter p).length := by
        rw [List.take_append_drop]
    _ = l.length - n := by
        rw [List.filter_append, htake, hdrop]
        have h1 : ((sortDesc key l).drop n).length = (sortDesc key l).length - n :=
          List.length_drop n _
        have h2 : (sortDesc key l).length = l.length := hperm.length_eq
        simp [h1, h2]

/-- A record kept by the eviction's deletions belongs to the dropped part of
the descending sort, so its weight is at most every deleted record's
weight. -/
theorem kept_weight_le (key : Torrent → Int) (l : List Torrent) (n : Nat) (k : Torrent)
    (hk : k ∈ l)
    (hkept :
      (!((((sortDesc key l).take n).map (fun t => t.infohash)).contains k.infohash)) = true) :
    ∀ d ∈ (sortDesc key l).take n, key k ≤ key d := by
  intro d hd
  have hks : k ∈ sortDesc key l := (sortDesc_perm key l).mem_iff.mpr hk
  have : k ∈ (sortDesc key l).take n ++ (sortDesc key l).drop n := by
    rw [List.take_append_drop]; exact hks
  rcases List.mem_append.mp this with htk | hdk
  · exfalso
    have hmem : k.infohash ∈ ((sortDesc key l).take n).map (fun t => t.infohash) :=
      List.mem_map_of_mem _ htk
    rw [List.map_take] at hmem
    simp [List.elem_iff, hmem] at hkept
  · exact sortDesc_take_drop_le key l n d hd k hdk

theorem mem_addTorrent (db : List Torrent) (t : Torrent) :
    t.infohash ∈ (addTorrent db t).map (fun x => x.infohash) := by
  unfold addTorrent
  split_ifs with hfound
  · rcases List.find?_isSome.mp hfound with ⟨x, hx, hpx⟩
    apply List.mem_map.mpr
    refine ⟨t, List.mem_map.mpr ⟨x, hx, by simp [hpx]⟩, rfl⟩
  · exact List.mem_map.mpr ⟨t, by simp, rfl⟩

/-! ## Concrete fixtures for witnesses and counterexamples -/

/-- A 20-byte identifier (twenty ASCII `0` bytes). -/
def h20 : List Nat := List.replicate 20 48

/-- Concrete oracles: a stubbed constant SHA-1 (only its output length and
inequality with `h20` matter for control flow), a clock, a storage
directory, and a capacity bound of 100. -/
def oracles0 : Oracles :=
  { shaDigest := fun _ => List.replicate 20 0
    shaHex := fun _ => bs "abcd"
    torrentName := fun _ => bs "t"
    calculateCategory := fun _ _ => bs "other"
    now := 1000000000
    config_dir := bs "conf/torrent2"
    max_num_torrents := 100
    writeFails := false
    hasDlhelper := false }

/-- Oracles whose disk write raises (caught inside `write_torrent`). -/
def oraclesFail : Oracles := { oracles0 with writeFails := true }

/-! ## C5 — the eviction weight formula -/

/-- C5: for every IndexRecord, the eviction weight computed by the policy
equals `status_rank*10^7 + min(retry,99)*10^5 + (99-min(relevance,99))*10^3
+ min(days_since_creation,999)`, where `status_rank` maps good to 0, unknown
to 1, and dead or any other status value to 2. -/
theorem C5_weight_formula (now : Int) (t : Torrent) :
    get_weight now t = spec_weight now t := by
  unfold get_weight spec_weight status_of status_rank rel_date
  have h86400 : (24 * 60 * 60 : Int) = 86400 := by norm_num
  rw [h86400]
  split_ifs with h1 h2 h3 h4 h5 <;> simp_all

/-! ## C7 — `read_torrent` size bound -/

/-- C7: `read(path)` returns the file's bytes for every readable file of at
most 8 MiB and returns absent for larger files or files that cannot be
opened. -/
theorem C7_read_bounds (fs : List (List Nat × List Nat)) (path : List Nat) :
    (fsLookup fs path = none → read_torrent fs path = none)
    ∧ ∀ data, fsLookup fs path = some data →
        ((data.length ≤ 8 * 1024 * 1024 → read_torrent fs path = some data)
         ∧ (8 * 1024 * 1024 < data.length → read_torrent fs path = none)) := by
  refine ⟨fun h => ?_, fun data h => ⟨fun hle => ?_, fun hgt => ?_⟩⟩ <;>
    unfold read_torrent <;> rw [h] <;>
    simp [Max_Torrent_Size] <;> omega

/-- A payload of exactly 8 MiB. -/
def bigFile : List Nat := List.replicate (8 * 1024 * 1024) 0

/-- A payload of 8 MiB + 1 byte. -/
def bigFile1 : List Nat := List.replicate (8 * 1024 * 1024 + 1) 0

def fsBig : List (List Nat × List Nat) := [(bs "p", bigFile)]

def fsBig1 : List (List Nat × List Nat) := [(bs "p", bigFile1)]

theorem C7_read_bounds_witness :
    (bigFile.length ≤ 8 * 1024 * 1024 ∧ read_torrent fsBig (bs "p") = some bigFile)
    ∧ (8 * 1024 * 1024 < bigFile1.length ∧ read_torrent fsBig1 (bs "p") = none) := by
  have hlen : bigFile.length = 8 * 1024 * 1024 := by
    rw [show bigFile = List.replicate (8 * 1024 * 1024) 0 from rfl, List.length_replicate]
  have hlen1 : bigFile1.length = 8 * 1024 * 1024 + 1 := by
    rw [show bigFile1 = List.replicate (8 * 1024 * 1024 + 1) 0 from rfl,
        List.length_replicate]
  have hl : fsLookup fsBig (bs "p") = some bigFile := by
    rw [show fsBig = [(bs "p", bigFile)] from rfl, fsLookup,
        List.find?_cons_of_pos _ (by rw [beq_iff_eq])]
    rfl
  have hl1 : fsLookup fsBig1 (bs "p") = some bigFile1 := by
    rw [show fsBig1 = [(bs "p", bigFile1)] from rfl, fsLookup,
        List.find?_cons_of_pos _ (by rw [beq_iff_eq])]
    rfl
  refine ⟨⟨by omega, ?_⟩, ⟨by omega, ?_⟩⟩
  · exact ((C7_read_bounds fsBig (bs "p")).2 bigFile hl).1 (by omega)
  · exact ((C7_read_bounds fsBig1 (bs "p")).2 bigFile1 hl1).2 (by omega)

/-! ## C1 — `GET_METADATA` for an unknown identifier -/

/-- C1 (amended): for every inbound `GET_METADATA` message carrying a
well-formed, valid identifier that is unknown locally, the handler sends no
outbound message and returns `false` (the source returns `False` at
line 93, not the "handled, nothing to do" `true` the claim states). -/
theorem C1_unknown_hash_drop (w : World) (conn message torrent_hash : List Nat)
    (hdec : bdecode (message.drop 1) = .ok (.str torrent_hash))
    (hvalid : isValidInfohash torrent_hash = true)
    (hfind : find_torrent w torrent_hash = none) :
    send_metadata w conn message = (false, w) := by
  unfold send_metadata
  rw [hdec]
  simp [hvalid, hfind]

/-- A `GET_METADATA` request for `h20`. -/
def msgGet : List Nat := GET_METADATA_ID :: (bs "20:" ++ h20)

/-- A world with an empty index. -/
def w0 : World := { db := [], fs := [], num_torrents := 0 }

/-- C1 counterexample: a concrete valid `GET_METADATA` for an identifier
that is unknown locally makes the handler return `false` (with no outbound
message), where the claim asserts the return is `true`. -/
theorem C1_unknown_hash_counterexample :
    bdecode (msgGet.drop 1) = .ok (.str h20)
    ∧ isValidInfohash h20 = true
    ∧ find_torrent w0 h20 = none
    ∧ send_metadata w0 [] msgGet = (false, w0)
    ∧ (send_metadata w0 [] msgGet).1 ≠ true := by
  refine ⟨rfl, rfl, rfl, rfl, by decide⟩

theorem C1_unknown_hash_drop_witness :
    (bdecode (msgGet.drop 1) = .ok (.str h20)
     ∧ isValidInfohash h20 = true
     ∧ find_torrent w0 h20 = none)
    ∧ send_metadata w0 [] msgGet = (false, w0) :=
  ⟨⟨rfl, rfl, rfl⟩, C1_unknown_hash_drop w0 [] msgGet h20 rfl rfl rfl⟩

/-! ## C3 — `valid_metadata` failure behaviour -/

/-- C3 counterexample: on the malformed (empty) payload, `valid_metadata`
does not return a boolean: the decode error escapes it as an exception
(`.error`), contradicting the claim that it returns `false` and that no
exception ever reaches its caller. -/
theorem C3_valid_metadata_counterexample :
    valid_metadata oracles0 h20 [] = .error "bdecode: unexpected end of data"
    ∧ valid_metadata oracles0 h20 [] ≠ .ok false := by
  refine ⟨rfl, fun h => Except.noConfusion h⟩

/-- C3 (amended): `valid_metadata` is not total: a decode failure of the
payload escapes it as an exception, and it is its caller `got_metadata`
that catches the exception, returning `false` with the state unchanged —
so failure is converted to `false` one frame above the one the claim
names. -/
theorem C3_decode_error_escapes (e : Oracles) (w : World)
    (conn message : List Nat) (md : List (List Nat × BValue))
    (torrent_hash metadata : List Nat)
    (hdec : bdecode (message.drop 1) = .ok (.dict md))
    (hth : dlookup md (bs "torrent_hash") = some (.str torrent_hash))
    (hvalid : isValidInfohash torrent_hash = true)
    (hmv : dlookup md (bs "metadata") = some (.str metadata)) :
    (∀ er, bdecode metadata = .error er →
        valid_metadata e torrent_hash metadata = .error er)
    ∧ (∀ er, valid_metadata e torrent_hash metadata = .error er →
        got_metadata e w conn message = (false, w)) := by
  constructor
  · intro er herr
    unfold valid_metadata
    rw [herr]
  · intro er herr
    unfold got_metadata
    rw [hdec]
    simp [hth, hvalid, hmv, herr]

/-- A `METADATA` message whose embedded `metadata` field is the empty byte
string (which fails to decode): `d8:metadata0:12:torrent_hash20:<h20>e`. -/
def msgMetaBad : List Nat :=
  METADATA_ID :: (bs "d8:metadata0:12:torrent_hash20:" ++ h20 ++ bs "e")

def mdBad : List (List Nat × BValue) :=
  [(bs "metadata", .str []), (bs "torrent_hash", .str h20)]

theorem C3_decode_error_escapes_witness :
    (bdecode (msgMetaBad.drop 1) = .ok (.dict mdBad)
     ∧ dlookup mdBad (bs "torrent_hash") = some (.str h20)
     ∧ isValidInfohash h20 = true
     ∧ dlookup mdBad (bs "metadata") = some (.str [])
     ∧ bdecode ([] : List Nat) = .error "bdecode: unexpected end of data")
    ∧ got_metadata oracles0 w0 [] msgMetaBad = (false, w0) :=
  ⟨⟨rfl, rfl, rfl, rfl, rfl⟩,
   (C3_decode_error_escapes oracles0 w0 [] msgMetaBad mdBad h20 [] rfl rfl rfl rfl).2
     "bdecode: unexpected end of data" rfl⟩

/-! ## C8 — `METADATA` with a mismatching hash is dropped -/

/-- C8: an inbound `METADATA` message whose `torrent_hash` does not equal
the content hash of the canonical encoding of the embedded metadata's
`info` sub-structure is dropped: the handler returns `false` and the state
(in particular the index) is unchanged. -/
theorem C8_hash_mismatch_drop (e : Oracles) (w : World)
    (conn message : List Nat) (md mi : List (List Nat × BValue))
    (torrent_hash metadata : List Nat) (info : BValue)
    (hdec : bdecode (message.drop 1) = .ok (.dict md))
    (hth : dlookup md (bs "torrent_hash") = some (.str torrent_hash))
    (hvalid : isValidInfohash torrent_hash = true)
    (hmv : dlookup md (bs "metadata") = some (.str metadata))
    (hmi : bdecode metadata = .ok (.dict mi))
    (hinfo : dlookup mi (bs "info") = some info)
    (hne : e.shaDigest (bencode info) ≠ torrent_hash) :
    got_metadata e w conn message = (false, w) := by
  have hvm : valid_metadata e torrent_hash metadata = .ok false := by
    unfold valid_metadata
    rw [hmi]
    simp [hinfo, hne]
  unfold got_metadata
  rw [hdec]
  simp [hth, hvalid, hmv, hvm]

/-- A `METADATA` message embedding the well-formed payload `d4:infodee`
whose info hash (under the stub SHA-1) differs from the claimed `h20`:
`d8:metadata10:d4:infodee12:torrent_hash20:<h20>e`. -/
def msgMetaMismatch : List Nat :=
  METADATA_ID :: (bs "d8:metadata10:d4:infodee12:torrent_hash20:" ++ h20 ++ bs "e")

def mdMismatch : List (List Nat × BValue) :=
  [(bs "metadata", .str (bs "d4:infodee")), (bs "torrent_hash", .str h20)]

theorem C8_hash_mismatch_drop_witness :
    (bdecode (msgMetaMismatch.drop 1) = .ok (.dict mdMismatch)
     ∧ dlookup mdMismatch (bs "torrent_hash") = some (.str h20)
     ∧ isValidInfohash h20 = true
     ∧ dlookup mdMismatch (bs "metadata") = some (.str (bs "d4:infodee"))
     ∧ bdecode (bs "d4:infodee") = .ok (.dict [(bs "info", .dict [])])
     ∧ oracles0.shaDigest (bencode (.dict [])) ≠ h20)
    ∧ got_metadata oracles0 w0 [] msgMetaMismatch = (false, w0) :=
  ⟨⟨rfl, rfl, rfl, rfl, rfl, by decide⟩,
   C8_hash_mismatch_drop oracles0 w0 [] msgMetaMismatch mdMismatch
     [(bs "info", .dict [])] h20 (bs "d4:infodee") (.dict [])
     rfl rfl rfl rfl rfl rfl (by decide)⟩

/-! ## C2 — save ordering: index upsert happens before the disk write -/

/-- When the counter is initialized and the optimistic increment stays
within the bound, the capacity check only bumps the counter. -/
theorem check_overflow_no_overflow (e : Oracles) (w : World)
    (hnum : 0 ≤ w.num_torrents)
    (hroom : w.num_torrents + 1 ≤ (e.max_num_torrents : Int)) :
    check_overflow e true w = { w with num_torrents := w.num_torrents + 1 } := by
  unfold check_overflow check_overflow_step
  rw [if_neg (by omega)]
  simp only []
  rw [if_neg (by omega)]

/-- Under a well-formed payload with a dictionary `info` entry,
`addTorrentToDB` upserts a record carrying the given identifier and then
runs the capacity check. -/
theorem addTorrentToDB_ok (e : Oracles) (w : World)
    (src torrent_hash metadata : List Nat)
    (md infoD : List (List Nat × BValue))
    (hdec : bdecode metadata = .ok (.dict md))
    (hinfo : dlookup md (bs "info") = some (.dict infoD)) :
    ∃ t : Torrent, t.infohash = torrent_hash ∧
      addTorrentToDB e w src torrent_hash metadata
        = .ok (check_overflow e true { w with db := addTorrent w.db t }) := by
  unfold addTorrentToDB
  rw [hdec]
  simp only [hinfo]
  exact ⟨_, rfl, rfl⟩

/-- C2 (amended): `save_torrent` upserts the IndexRecord into the index
first and only then writes the payload file; consequently, when the disk
write fails (the exception being caught and logged inside `write_torrent`),
the IndexRecord added by the save remains in the index while the filesystem
is unchanged. -/
theorem C2_index_added_despite_write_failure (e : Oracles) (w : World)
    (torrent_hash metadata : List Nat) (md infoD : List (List Nat × BValue))
    (hfail : e.writeFails = true)
    (hnum : 0 ≤ w.num_torrents)
    (hroom : w.num_torrents + 1 ≤ (e.max_num_torrents : Int))
    (hdec : bdecode metadata = .ok (.dict md))
    (hinfo : dlookup md (bs "info") = some (.dict infoD)) :
    ∃ w', save_torrent e w torrent_hash metadata = .ok w'
      ∧ w'.fs = w.fs
      ∧ torrent_hash ∈ w'.db.map (fun t => t.infohash) := by
  unfold save_torrent get_filename
  rw [hdec]
  simp only []
  split_ifs with hex <;>
  · simp only []
    obtain ⟨t, hth, hadd⟩ := addTorrentToDB_ok e w _ torrent_hash metadata md infoD hdec hinfo
    rw [hadd,
        check_overflow_no_overflow e { w with db := addTorrent w.db t } hnum hroom]
    refine ⟨_, rfl, ?_, ?_⟩
    · unfold write_torrent
      rw [if_pos hfail]
    · unfold write_torrent
      rw [if_pos hfail]
      simpa [hth] using mem_addTorrent w.db t

/-- The well-formed payload `d4:infodee` (a dictionary whose `info` entry is
an empty dictionary). -/
def mSmall : List Nat := bs "d4:infodee"

/-- A world with an empty index and an initialized counter of 5. -/
def w2 : World := { db := [], fs := [], num_torrents := 5 }

/-- C2 counterexample: a concrete save during which the disk write fails
still adds the IndexRecord for the identifier to the index (the upsert ran
before the write), contradicting the claim that a failed save leaves the
index without a record for the identifier. -/
theorem C2_counterexample :
    oraclesFail.writeFails = true
    ∧ (save_torrent oraclesFail w2 h20 mSmall).toOption.map (fun w => w.fs) = some []
    ∧ (save_torrent oraclesFail w2 h20 mSmall).toOption.map
        (fun w => w.db.map (fun t => t.infohash)) = some [h20] := by
  refine ⟨rfl, rfl, rfl⟩

theorem C2_index_added_despite_write_failure_witness :
    (oraclesFail.writeFails = true
     ∧ 0 ≤ w2.num_torrents
     ∧ w2.num_torrents + 1 ≤ (oraclesFail.max_num_torrents : Int)
     ∧ bdecode mSmall = .ok (.dict [(bs "info", .dict [])])
     ∧ dlookup [(bs "info", BValue.dict [])] (bs "info") = some (.dict []))
    ∧ ∃ w', save_torrent oraclesFail w2 h20 mSmall = .ok w'
        ∧ w'.fs = w2.fs
        ∧ h20 ∈ w'.db.map (fun t => t.infohash) :=
  ⟨⟨rfl, by decide, by decide, rfl, rfl⟩,
   C2_index_added_despite_write_failure oraclesFail w2 h20 mSmall
     [(bs "info", .dict [])] [] rfl (by decide) (by decide) rfl rfl⟩
/-! ## C4 / C9 — `check_overflow` counter behaviour -/

/-- `limit_space` never touches the in-memory counter. -/
theorem limit_space_num (e : Oracles) (w : World) :
    (limit_space e w).num_torrents = w.num_torrents := by
  unfold limit_space
  simp only []
  rw [foldl_delete_num]

/-- The index after an eviction pass, as a filter on the pre-pass index. -/
theorem limit_space_db (e : Oracles) (w : World) :
    (limit_space e w).db = w.db.filter (fun x =>
      !((((sortDesc (get_weight e.now) w.torrent_list).take (num_delete e w).toNat).map
          (fun t => t.infohash)).contains x.infohash)) := by
  unfold limit_space
  simp only []
  rw [foldl_delete_db]

/-- Record count after an eviction pass over a snapshot that matches the
index with unique identifiers. -/
theorem limit_space_db_length (e : Oracles) (w : World)
    (hsync : w.torrent_list = w.db)
    (hnd : (w.db.map (fun t => t.infohash)).Nodup) :
    (limit_space e w).db.length = w.db.length - (num_delete e w).toNat := by
  rw [limit_space_db, hsync]
  exact length_filter_not_in_take (get_weight e.now) w.db _ hnd

/-- `num_delete` is always at least one. -/
theorem one_le_num_delete (e : Oracles) (w : World) : 1 ≤ num_delete e w := by
  unfold num_delete
  dsimp only
  split_ifs <;> omega

/-- When the counter equals the record count and the store is over budget,
`num_delete` stays within the record count. -/
theorem num_delete_le (e : Oracles) (w : World)
    (hcnt : w.num_torrents = (w.db.length : Int))
    (hover : (e.max_num_torrents : Int) < (w.db.length : Int)) :
    num_delete e w ≤ (w.db.length : Int) := by
  have hdiv : (e.max_num_torrents / 10 : Nat) ≤ e.max_num_torrents :=
    Nat.div_le_self _ _
  unfold num_delete
  dsimp only
  split_ifs <;> omega

/-- On the over-budget `update=True` path, the capacity check re-counts from
the index and hands the re-synced world to the eviction pass. -/
theorem check_overflow_evicts (e : Oracles) (w : World)
    (hnum : 0 ≤ w.num_torrents)
    (htrig : (e.max_num_torrents : Int) < w.num_torrents + 1)
    (hover : (e.max_num_torrents : Int) < (w.db.length : Int)) :
    check_overflow e true w
      = limit_space e { w with torrent_list := w.db,
                               num_torrents := (w.db.length : Int) } := by
  unfold check_overflow check_overflow_step
  rw [if_neg (by omega)]
  dsimp only [getRecommendedTorrents]
  rw [if_pos (show w.num_torrents + 1 > (e.max_num_torrents : Int) by omega)]
  rw [if_pos (rfl : true = true)]
  dsimp only
  rw [if_pos (show (w.db.length : Int) > (e.max_num_torrents : Int) by omega)]

/-- When the optimistic increment does not exceed the bound, one step of the
capacity check only bumps the counter. -/
theorem check_overflow_step_no_overflow (e : Oracles) (u : Bool) (w : World)
    (h : w.num_torrents + 1 ≤ (e.max_num_torrents : Int)) :
    check_overflow_step e u w = { w with num_torrents := w.num_torrents + 1 } := by
  unfold check_overflow_step
  dsimp only
  rw [if_neg (by omega)]

/-- C4 (amended): the controller re-synchronizes its counter from the index
before deciding to evict, not after the deletions: when a capacity check
performs deletions, it completes with the counter still holding the
pre-eviction authoritative count, which strictly exceeds the number of
records actually remaining in the index. -/
theorem C4_counter_stale_after_eviction (e : Oracles) (w : World)
    (hnum : 0 ≤ w.num_torrents)
    (htrig : (e.max_num_torrents : Int) < w.num_torrents + 1)
    (hover : (e.max_num_torrents : Int) < (w.db.length : Int))
    (hnd : (w.db.map (fun t => t.infohash)).Nodup) :
    (check_overflow e true w).num_torrents = (w.db.length : Int)
    ∧ ((check_overflow e true w).db.length : Int)
        < (check_overflow e true w).num_torrents := by
  have hstep := check_overflow_evicts e w hnum htrig hover
  set w2 : World := { w with torrent_list := w.db,
                             num_torrents := (w.db.length : Int) } with hw2
  have hlen : (limit_space e w2).db.length = w2.db.length - (num_delete e w2).toNat :=
    limit_space_db_length e w2 rfl hnd
  have h1 : 1 ≤ num_delete e w2 := one_le_num_delete e w2
  have h2 : num_delete e w2 ≤ (w2.db.length : Int) := num_delete_le e w2 rfl hover
  constructor
  · rw [hstep, limit_space_num]
  · rw [hstep, limit_space_num, hlen]
    have hdb : w2.db.length = w.db.length := rfl
    have hnum2 : w2.num_torrents = (w.db.length : Int) := rfl
    omega

def tGood : Torrent := { infohash := [1], status := some "good" }

def tUnknown : Torrent := { infohash := [2], status := some "unknown" }

def tDead : Torrent := { infohash := [3], status := some "dead" }

/-- Oracles with a capacity bound of one record. -/
def eMax1 : Oracles := { oracles0 with max_num_torrents := 1 }

def w4 : World := { db := [tGood, tUnknown, tDead], fs := [], num_torrents := 3 }

/-- C4 counterexample: a concrete capacity check that deletes records
completes with its in-memory counter different from (strictly above) the
number of records remaining in the index. -/
theorem C4_counterexample :
    (check_overflow eMax1 true w4).db.length < w4.db.length
    ∧ (check_overflow eMax1 true w4).num_torrents
        ≠ ((check_overflow eMax1 true w4).db.length : Int) := by
  constructor
  · decide
  · decide

theorem C4_counter_stale_after_eviction_witness :
    (0 ≤ w4.num_torrents
     ∧ (eMax1.max_num_torrents : Int) < w4.num_torrents + 1
     ∧ (eMax1.max_num_torrents : Int) < (w4.db.length : Int)
     ∧ (w4.db.map (fun t => t.infohash)).Nodup)
    ∧ ((check_overflow eMax1 true w4).num_torrents = (w4.db.length : Int)
       ∧ ((check_overflow eMax1 true w4).db.length : Int)
           < (check_overflow eMax1 true w4).num_torrents) :=
  ⟨⟨by decide, by decide, by decide, by decide⟩,
   C4_counter_stale_after_eviction eMax1 w4 (by decide) (by decide) (by decide) (by decide)⟩

/-- C9 (amended): on the very first capacity check after registration (the
counter lazily initialized from `-1`), the counter is set from the index
query and incremented twice — once in the recursive `update=False` call and
once in the original invocation — so, provided the incremented counter stays
within the configured maximum (initial index count + 2 ≤ max), the first
check completes with the counter exactly 2 above the index count while the
index itself is unchanged.  (When the bound is hit, the authoritative
re-count resets the counter instead, so the claim's unconditional form
fails.) -/
theorem C9_first_check_double_increment (e : Oracles) (w : World)
    (hinit : w.num_torrents < 0)
    (hroom : (w.db.length : Int) + 2 ≤ (e.max_num_torrents : Int)) :
    (check_overflow e true w).num_torrents = (w.db.length : Int) + 2
    ∧ (check_overflow e true w).db = w.db := by
  have h0 : check_overflow e true w
      = check_overflow_step e true (check_overflow_step e false
          { w with torrent_list := getRecommendedTorrents w.db,
                   num_torrents := ((getRecommendedTorrents w.db).length : Int) }) := by
    unfold check_overflow
    rw [if_pos hinit]
  rw [h0,
      check_overflow_step_no_overflow e false _
        (by dsimp only [getRecommendedTorrents]; omega),
      check_overflow_step_no_overflow e true _
        (by dsimp only [getRecommendedTorrents]; omega)]
  refine ⟨?_, rfl⟩
  dsimp only [getRecommendedTorrents]
  omega

def w9 : World := { db := [tGood], fs := [], num_torrents := -1 }

/-- C9 counterexample: a concrete first capacity check (counter `-1`, one
record in the index, bound 1) ends with counter 0, not index-count + 2 — on
the over-budget path the authoritative re-count resets the counter (and the
`update=False` recursive call even runs a spurious eviction), so the claimed
unconditional "+2" does not hold. -/
theorem C9_counterexample :
    w9.num_torrents < 0
    ∧ (getRecommendedTorrents w9.db).length = 1
    ∧ (check_overflow eMax1 true w9).num_torrents = 0
    ∧ (check_overflow eMax1 true w9).num_torrents
        ≠ ((getRecommendedTorrents w9.db).length : Int) + 2 := by
  refine ⟨by decide, rfl, by decide, by decide⟩

/-- A fresh world as `register` leaves it: empty index, counter `-1`. -/
def wFresh : World := { db := [], fs := [], num_torrents := -1 }

theorem C9_first_check_double_increment_witness :
    (wFresh.num_torrents < 0
     ∧ (wFresh.db.length : Int) + 2 ≤ (oracles0.max_num_torrents : Int))
    ∧ ((check_overflow oracles0 true wFresh).num_torrents = (wFresh.db.length : Int) + 2
       ∧ (check_overflow oracles0 true wFresh).db = wFresh.db) :=
  ⟨⟨by decide, by decide⟩,
   C9_first_check_double_increment oracles0 wFresh (by decide) (by decide)⟩

/-! ## C6 — the eviction pass deletes exactly the highest-weight records -/

/-- C6: over a snapshot that matches the index (unique identifiers, counter
equal to the record count, over budget), an eviction pass deletes exactly
`num_delete = max(1, current_count - max_records + max_records/10)` records,
every kept record weighs no more than every deleted one, and in particular
with 110 records and `max_records = 100` exactly 20 records are deleted and
90 remain. -/
theorem C6_eviction (e : Oracles) (w : World)
    (hsync : w.torrent_list = w.db)
    (hnd : (w.db.map (fun t => t.infohash)).Nodup)
    (hcnt : w.num_torrents = (w.db.length : Int))
    (hover : (e.max_num_torrents : Int) < w.num_torrents) :
    num_delete e w
        = max 1 (w.num_torrents - (e.max_num_torrents : Int)
                 + ((e.max_num_torrents / 10 : Nat) : Int))
    ∧ ((limit_space e w).db.length : Int) = (w.db.length : Int) - num_delete e w
    ∧ (∀ d ∈ (sortDesc (get_weight e.now) w.db).take (num_delete e w).toNat,
        ∀ k ∈ (limit_space e w).db, get_weight e.now k ≤ get_weight e.now d)
    ∧ (w.db.length = 110 → e.max_num_torrents = 100 →
        num_delete e w = 20 ∧ (limit_space e w).db.length = 90) := by
  have hover' : (e.max_num_torrents : Int) < (w.db.length : Int) := hcnt ▸ hover
  have h1 : 1 ≤ num_delete e w := one_le_num_delete e w
  have h2 : num_delete e w ≤ (w.db.length : Int) := num_delete_le e w hcnt hover'
  have hmax : num_delete e w
      = max 1 (w.num_torrents - (e.max_num_torrents : Int)
               + ((e.max_num_torrents / 10 : Nat) : Int)) := by
    unfold num_delete
    dsimp only
    split_ifs <;> omega
  have hlen : (limit_space e w).db.length = w.db.length - (num_delete e w).toNat :=
    limit_space_db_length e w hsync hnd
  have hlenZ : ((limit_space e w).db.length : Int)
      = (w.db.length : Int) - num_delete e w := by
    rw [hlen]; omega
  refine ⟨hmax, hlenZ, ?_, ?_⟩
  · intro d hd k hk
    rw [limit_space_db, hsync] at hk
    rcases List.mem_filter.mp hk with ⟨hkdb, hpk⟩
    exact kept_weight_le (get_weight e.now) w.db (num_delete e w).toNat k hkdb hpk d hd
  · intro h110 h100
    have hnd20 : num_delete e w = 20 := by
      rw [hmax, hcnt, h110, h100]
      norm_num
    refine ⟨hnd20, ?_⟩
    have hz := hlenZ
    rw [hnd20, h110] at hz
    omega

/-- A snapshot of 110 records with distinct identifiers. -/
def torrents110 : List Torrent := (List.range 110).map (fun i => { infohash := [i] })

def w6 : World :=
  { db := torrents110, fs := [], num_torrents := 110, torrent_list := torrents110 }

theorem C6_eviction_witness :
    (w6.torrent_list = w6.db
     ∧ (w6.db.map (fun t => t.infohash)).Nodup
     ∧ w6.num_torrents = (w6.db.length : Int)
     ∧ (oracles0.max_num_torrents : Int) < w6.num_torrents
     ∧ w6.db.length = 110 ∧ oracles0.max_num_torrents = 100)
    ∧ (num_delete oracles0 w6 = 20 ∧ (limit_space oracles0 w6).db.length = 90) :=
  ⟨⟨rfl, by decide, by decide, by decide, by decide, rfl⟩,
   (C6_eviction oracles0 w6 rfl (by decide) (by decide) (by decide)).2.2.2
     (by decide) rfl⟩

/-! ## C10 — the day-age term of the eviction weight -/

/-- Truncating division cancels an exact non-negative multiple of 86400. -/
theorem tdiv_mul_86400 (k : Int) (hk : 0 ≤ k) : Int.tdiv (86400 * k) 86400 = k := by
  obtain ⟨n, rfl⟩ := Int.eq_ofNat_of_zero_le hk
  rw [show ((86400 : Int) * n) = ((86400 * n : Nat) : Int) by push_cast; ring,
      show (86400 : Int) = ((86400 : Nat) : Int) by norm_num, ← Int.ofNat_tdiv]
  norm_num

/-- A creation date exactly `k` days in the future makes the day-age term
`-k`: it is not clamped below at 0. -/
theorem rel_date_future (now k : Int) (hk : 0 ≤ k) :
    rel_date now (now + 86400 * k) = -k := by
  unfold rel_date
  rw [show (24 * 60 * 60 : Int) = 86400 by norm_num,
      show now - (now + 86400 * k) = -(86400 * k) by ring,
      Int.neg_tdiv, tdiv_mul_86400 k hk]
  exact min_eq_left (by omega)

/-- For past (or present) creation dates the day-age term lies in
`[0, 999]`. -/
theorem rel_date_nonneg (now date : Int) (h : date ≤ now) :
    0 ≤ rel_date now date ∧ rel_date now date ≤ 999 := by
  constructor
  · exact le_min (Int.tdiv_nonneg (by omega) (by norm_num)) (by norm_num)
  · exact min_le_right _ _

theorem status_of_bounds (t : Torrent) : 0 ≤ status_of t ∧ status_of t ≤ 2 := by
  unfold status_of
  dsimp only
  split_ifs <;> omega

/-- A record with a past creation date and non-negative retry count has
non-negative weight. -/
theorem get_weight_nonneg (now : Int) (t : Torrent)
    (hdate : creation_of t ≤ now) (hretry : 0 ≤ t.retry_number.getD 0) :
    0 ≤ get_weight now t := by
  have hs := status_of_bounds t
  have hr : 0 ≤ min (t.retry_number.getD 0) 99 := le_min hretry (by norm_num)
  have hrel : min (t.relevance.getD 0) 99 ≤ 99 := min_le_right _ _
  have hd := (rel_date_nonneg now (creation_of t) hdate).1
  unfold get_weight
  dsimp only
  rw [show (10 : Int) ^ 7 = 10000000 by norm_num,
      show (10 : Int) ^ 5 = 100000 by norm_num,
      show (10 : Int) ^ 3 = 1000 by norm_num]
  omega

/-- Every weight is bounded by `29999000` plus the day-age term, provided
the relevance field is non-negative (or absent). -/
theorem get_weight_le (now : Int) (t : Torrent) (hrel : 0 ≤ t.relevance.getD 0) :
    get_weight now t ≤ 29999000 + rel_date now (creation_of t) := by
  have hs := status_of_bounds t
  have hr : min (t.retry_number.getD 0) 99 ≤ 99 := min_le_right _ _
  have hrel2 : 0 ≤ min (t.relevance.getD 0) 99 := le_min hrel (by norm_num)
  unfold get_weight
  dsimp only
  rw [show (10 : Int) ^ 7 = 10000000 by norm_num,
      show (10 : Int) ^ 5 = 100000 by norm_num,
      show (10 : Int) ^ 3 = 1000 by norm_num]
  omega

/-- Identifiers in the deleted prefix and the kept suffix of the sorted
snapshot never coincide when the snapshot's identifiers are unique. -/
theorem sortDesc_take_drop_hash_ne (key : Torrent → Int) (l : List Torrent) (n : Nat)
    (hnd : (l.map (fun t => t.infohash)).Nodup) :
    ∀ a ∈ (sortDesc key l).take n, ∀ b ∈ (sortDesc key l).drop n,
      a.infohash ≠ b.infohash := by
  intro a ha b hb hcontra
  have hperm := sortDesc_perm key l
  have hnds : ((sortDesc key l).map (fun t => t.infohash)).Nodup :=
    (hperm.map (fun t => t.infohash)).nodup_iff.mpr hnd
  have hsplit : ((sortDesc key l).take n).map (fun t => t.infohash)
      ++ ((sortDesc key l).drop n).map (fun t => t.infohash)
      = (sortDesc key l).map (fun t => t.infohash) := by
    rw [← List.map_append, List.take_append_drop]
  rw [← hsplit] at hnds
  exact (List.nodup_append.mp hnds).2.2 (List.mem_map_of_mem _ ha)
    (hcontra ▸ List.mem_map_of_mem _ hb)

/-- C10 (amended): the day-age term is clamped above at 999 but not below
at 0.  For creation dates up to the current time it lies in `[0, 999]`; a
date less than one full day ahead still yields 0, but dates further in the
future make the term negative and unbounded below, so (for any snapshot of
normally-dated records with non-negative retry counters) a record with a
sufficiently large future creation date and non-negative relevance gets a
strictly lower weight than every record of the snapshot, and such a record
is selected for eviction only if the entire snapshot is. -/
theorem C10_day_age_term :
    (∀ now date : Int, date ≤ now →
        0 ≤ rel_date now date ∧ rel_date now date ≤ 999)
    ∧ (∀ now B : Int, ∃ date, now < date ∧ rel_date now date < B)
    ∧ (∀ now : Int, ∀ l : List Torrent,
        (∀ t ∈ l, creation_of t ≤ now ∧ 0 ≤ t.retry_number.getD 0) →
        ∃ date, now < date ∧ ∀ f : Torrent, creation_of f = date →
          0 ≤ f.relevance.getD 0 → ∀ t ∈ l, get_weight now f < get_weight now t)
    ∧ (∀ (e : Oracles) (f : Torrent) (l : List Torrent) (w : World),
        w.torrent_list = f :: l →
        ((f :: l).map (fun t => t.infohash)).Nodup →
        (∀ t ∈ l, get_weight e.now f < get_weight e.now t) →
        f ∈ (sortDesc (get_weight e.now) w.torrent_list).take (num_delete e w).toNat →
        ∀ t ∈ w.torrent_list,
          t ∈ (sortDesc (get_weight e.now) w.torrent_list).take
                (num_delete e w).toNat) := by
  refine ⟨rel_date_nonneg, ?_, ?_, ?_⟩
  · intro now B
    refine ⟨now + 86400 * ((B.natAbs : Int) + 1), by omega, ?_⟩
    rw [rel_date_future now ((B.natAbs : Int) + 1) (by omega)]
    omega
  · intro now l hnormal
    refine ⟨now + 86400 * 29999001, by omega, ?_⟩
    intro f hcf hrelf t ht
    have h1 : get_weight now f ≤ 29999000 + rel_date now (creation_of f) :=
      get_weight_le now f hrelf
    rw [hcf, show (now + 86400 * 29999001) = now + 86400 * (29999001 : Int) from rfl,
        rel_date_future now 29999001 (by norm_num)] at h1
    have h2 : 0 ≤ get_weight now t :=
      get_weight_nonneg now t (hnormal t ht).1 (hnormal t ht).2
    omega
  · intro e f l w hsync hnd hlt hf
    rw [hsync] at hf ⊢
    intro t ht
    have hperm := sortDesc_perm (get_weight e.now) (f :: l)
    have hdrop_empty :
        (sortDesc (get_weight e.now) (f :: l)).drop (num_delete e w).toNat = [] := by
      by_contra hne
      obtain ⟨b, hb⟩ := List.exists_mem_of_ne_nil _ hne
      have hbs : b ∈ sortDesc (get_weight e.now) (f :: l) := List.mem_of_mem_drop hb
      rcases List.mem_cons.mp (hperm.mem_iff.mp hbs) with heq | hbl
      · rw [heq] at hb
        exact sortDesc_take_drop_hash_ne (get_weight e.now) (f :: l)
          (num_delete e w).toNat hnd f hf f hb rfl
      · have hle : get_weight e.now b ≤ get_weight e.now f :=
          sortDesc_take_drop_le (get_weight e.now) (f :: l)
            (num_delete e w).toNat f hf b hb
        have hgt : get_weight e.now f < get_weight e.now b := hlt b hbl
        omega
    have htake_all :
        (sortDesc (get_weight e.now) (f :: l)).take (num_delete e w).toNat
          = sortDesc (get_weight e.now) (f :: l) := by
      have hx := List.take_append_drop (num_delete e w).toNat
        (sortDesc (get_weight e.now) (f :: l))
      rw [hdrop_empty, List.append_nil] at hx
      exact hx
    rw [htake_all]
    exact hperm.mem_iff.mpr ht

/-- C10 counterexample: a creation date that exceeds the current time by one
second gives a day-age term of 0, not a negative value — the claim's "for
every record whose creation date exceeds the current time the term is
negative" fails (truncating division sends `(-1)/86400` to 0). -/
theorem C10_counterexample :
    (0 : Int) < 1 ∧ rel_date 0 1 = 0 ∧ ¬ rel_date 0 1 < 0 := by decide

/-- A record whose creation date lies far in the future. -/
def tFut : Torrent :=
  { infohash := [9], status := some "good",
    info := some { creation_date := 1000000000000000 } }

def wC10 : World :=
  { db := [tFut, tGood], fs := [], num_torrents := 13,
    torrent_list := [tFut, tGood] }

theorem C10_day_age_term_witness :
    (((-86400 : Int) ≤ 0)
      ∧ (0 ≤ rel_date 0 (-86400) ∧ rel_date 0 (-86400) ≤ 999))
    ∧ (∃ date, (0 : Int) < date ∧ rel_date 0 date < -5)
    ∧ ((∀ t ∈ [tGood], creation_of t ≤ 0 ∧ 0 ≤ t.retry_number.getD 0)
      ∧ ∃ date, (0 : Int) < date ∧ ∀ f : Torrent, creation_of f = date →
          0 ≤ f.relevance.getD 0 → ∀ t ∈ [tGood], get_weight 0 f < get_weight 0 t)
    ∧ ((wC10.torrent_list = tFut :: [tGood]
        ∧ ((tFut :: [tGood]).map (fun t => t.infohash)).Nodup
        ∧ (∀ t ∈ [tGood], get_weight eMax1.now tFut < get_weight eMax1.now t)
        ∧ tFut ∈ (sortDesc (get_weight eMax1.now) wC10.torrent_list).take
            (num_delete eMax1 wC10).toNat)
      ∧ ∀ t ∈ wC10.torrent_list,
          t ∈ (sortDesc (get_weight eMax1.now) wC10.torrent_list).take
                (num_delete eMax1 wC10).toNat) :=
  have hmem : tFut ∈ (sortDesc (get_weight eMax1.now) wC10.torrent_list).take
      (num_delete eMax1 wC10).toNat := by
    rw [show (sortDesc (get_weight eMax1.now) wC10.torrent_list).take
          (num_delete eMax1 wC10).toNat = [tGood, tFut] from rfl]
    exact List.Mem.tail _ (List.Mem.head _)
  ⟨⟨by decide, C10_day_age_term.1 0 (-86400) (by decide)⟩,
   C10_day_age_term.2.1 0 (-5),
   ⟨by decide, C10_day_age_term.2.2.1 0 [tGood] (by decide)⟩,
   ⟨⟨rfl, by decide, by decide, hmem⟩,
    C10_day_age_term.2.2.2 eMax1 tFut [tGood] wC10 rfl (by decide) (by decide) hmem⟩⟩
